import Mathlib

/-!
Verification development for `pymc_marketing/mmm/tvp.py` (time-varying
Gaussian-process multiplier for marketing mix models).

The module has three functions:

* `time_varying_prior` (lines 100-181): resolves `X_mid` and `L` defaults,
  optionally creates amplitude/lengthscale random variables, registers the
  basis coordinate `"m"`, builds the HSGP basis, draws standard-normal
  coefficients, and returns `softplus(phi @ (coefs * sqrt_psd).T)` recentered
  to mean one along the time axis.
* `create_time_varying_gp_multiplier` (lines 184-231): fills unset `L` and
  `ls_mu` defaults in the per-name configuration record and delegates to
  `time_varying_prior` under a derived name.
* `infer_time_index` (lines 233-240): maps dates to `(d - ref[0]).days //
  time_resolution`.

The numeric pipeline (lines 178-181) is embedded over `ℝ`; the
model-construction effects (lines 158-177) are embedded as an
`Except`-valued state transformer over a small model-state record, with the
float hyperparameters carried as rationals; dates are embedded as integer
day numbers, with Python `//` as `Int.fdiv` (floor division).
-/

open scoped BigOperators

/-- Softplus, `pt.softplus` applied elementwise at tvp.py line 179:
`softplus x = log (1 + exp x)`. -/
noncomputable def softplus (x : ℝ) : ℝ := Real.log (1 + Real.exp x)

/-- Line 178 of tvp.py: the raw GP draw `f = phi @ (hsgp_coefs * sqrt_psd).T`
for one output column. `phi` is the `(T, m)` basis matrix produced by
`gp.prior_linearized`, `hsgp_coefs` the standard-normal coefficient
realization, `sqrt_psd` the square-rooted spectral densities. When `dims` is
a pair, the same formula applies independently to each group column, so the
single-column embedding covers each element of the 2-D case. -/
def tvp_f (T m : ℕ) (phi : Fin T → Fin m → ℝ) (hsgp_coefs sqrt_psd : Fin m → ℝ) :
    Fin T → ℝ :=
  fun t => ∑ j, phi t j * (hsgp_coefs j * sqrt_psd j)

/-- Lines 179-180 of tvp.py: `f = pt.softplus(f); centered_f = f - f.mean(axis=0) + 1`.
The time axis is axis 0, so the mean divides by the number `T` of time points. -/
noncomputable def tvp_multiplier (T : ℕ) (g : Fin T → ℝ) : Fin T → ℝ :=
  fun t => softplus (g t) - (∑ s, softplus (g s)) / (T : ℝ) + 1

/-- The value of the deterministic tensor returned by `time_varying_prior`
(line 181) for a given realization of the basis coefficients and of the
basis/spectral data: the composition of lines 178-181. -/
noncomputable def time_varying_prior_value (T m : ℕ) (phi : Fin T → Fin m → ℝ)
    (hsgp_coefs sqrt_psd : Fin m → ℝ) : Fin T → ℝ :=
  tvp_multiplier T (tvp_f T m phi hsgp_coefs sqrt_psd)

/-- The `dims` argument of `time_varying_prior`: either a single dimension
name or a tuple of dimension names (Python allows any tuple length; the code
reads `dims[1]` when it is a tuple). -/
inductive DimsSpec where
  | single (d : String)
  | tuple (ds : List String)
deriving DecidableEq

/-- A record of one named random variable created in the owning model
context, with the distribution family and parameters used at the call. -/
inductive RVSpec where
  | exponential (name : String) (lam : ℚ)
  | inverseGamma (name : String) (mu sigma : ℚ)
  | normal (name : String) (dims : List String)
deriving DecidableEq

/-- The observable model-construction state of the owning `pm.Model`
context: the named coordinates registered so far and the named random
variables created so far (in creation order). -/
structure ModelState where
  coords : List (String × List ℕ)
  rvs : List RVSpec
deriving DecidableEq

/-- `pm.Model.add_coord` as documented by the external pymc dependency:
registering a fresh name appends it; re-registering an existing name is a
no-op when the supplied values equal the stored ones and raises a
`ValueError` about a duplicate, incompatible coordinate otherwise. -/
def add_coord (coords : List (String × List ℕ)) (name : String) (values : List ℕ) :
    Except String (List (String × List ℕ)) :=
  match coords.lookup name with
  | some old =>
      if old = values then .ok coords
      else .error ("Duplicate and incompatible coordinate: " ++ name)
  | none => .ok (coords ++ [(name, values)])

/-- `np.arange(m)` for an integer argument: `[0, ..., m-1]`, empty when
`m ≤ 0`. -/
def np_arange (m : ℤ) : List ℕ := List.range m.toNat

/-- Lines 171-173 of tvp.py: `hsgp_dims = "m"` and, when `dims` is a tuple,
`hsgp_dims = (dims[1], "m")`. Reading `dims[1]` on a tuple with fewer than
two elements raises an `IndexError`; any longer tuple is accepted and only
its second element is used. -/
def resolve_hsgp_dims : DimsSpec → Except String (List String)
  | .single _ => .ok ["m"]
  | .tuple ds =>
      match ds.get? 1 with
      | some d => .ok [d, "m"]
      | none => .error "IndexError: tuple index out of range"

/-- Lines 165-168 of tvp.py: when `cov_func` is `None`, create
`{name}_eta ~ Exponential(lam=eta_lam)` and
`{name}_ls ~ InverseGamma(mu=ls_mu, sigma=ls_sigma)`; otherwise create
nothing. `cov_set` is true when a covariance function was supplied. -/
def cov_func_rvs (name : String) (cov_set : Bool) (eta_lam ls_mu ls_sigma : ℚ) :
    List RVSpec :=
  if cov_set then []
  else [.exponential (name ++ "_eta") eta_lam,
        .inverseGamma (name ++ "_ls") ls_mu ls_sigma]

/-- The resolved scalar configuration and model effects of
`time_varying_prior`, lines 158-177 of tvp.py, in source order:
resolve `X_mid` (line 158, defaulting to the eagerly evaluated mean of `X`,
passed here as `X_mean`); resolve `L` (line 160, defaulting to `X_mid * 2`);
create the covariance random variables when `cov_func` is unset (lines
165-168); register the coordinate `"m"` with values `np.arange(m)` (line
170); dispatch `hsgp_dims` on the shape of `dims` (lines 171-173); create
the standard-normal coefficient variable `{name}_hsgp_coefs` with dims
`hsgp_dims` (line 177). `gp.prior_linearized` (lines 175-176) creates no
named model state. The function performs no validation of `m`, `L` or the
length of a `dims` tuple beyond the `dims[1]` access. -/
def time_varying_prior_setup (st : ModelState) (name : String) (X_mean : ℚ)
    (dims : DimsSpec) (X_mid : Option ℚ) (m : ℤ) (L : Option ℚ)
    (eta_lam ls_mu ls_sigma : ℚ) (cov_set : Bool) :
    Except String (ModelState × ℚ × ℚ × List String) :=
  let xmid : ℚ := match X_mid with | none => X_mean | some v => v
  let l : ℚ := match L with | none => xmid * 2 | some v => v
  let rvs1 : List RVSpec := cov_func_rvs name cov_set eta_lam ls_mu ls_sigma
  match add_coord st.coords "m" (np_arange m) with
  | .error e => .error e
  | .ok coords1 =>
      match resolve_hsgp_dims dims with
      | .error e => .error e
      | .ok hdims =>
          .ok (⟨coords1, st.rvs ++ rvs1 ++ [.normal (name ++ "_hsgp_coefs") hdims]⟩,
               xmid, l, hdims)

/-- Whether `resolve_hsgp_dims` succeeds: a single dimension name always
does, a tuple only when it has at least two elements. -/
def dims_len_ok : DimsSpec → Bool
  | .single _ => true
  | .tuple [] => false
  | .tuple [_] => false
  | .tuple (_ :: _ :: _) => true

/-- Whether an `Except` computation finished without raising. -/
def exc_ok {ε α : Type} : Except ε α → Bool
  | .ok _ => true
  | .error _ => false

/-- Modelled from the spec: the constant `DAYS_IN_YEAR` imported from
`pymc_marketing.constants`, whose source is not part of this tree; the
spec's concrete scenario uses 365 days per year. -/
def DAYS_IN_YEAR : ℚ := 365

/-- The per-name configuration record `model_config[f"{name}_tvp_config"]`
consumed by `create_time_varying_gp_multiplier`: `None` fields are `none`.
`cov_set` is true when a pre-built covariance function is present. -/
structure TVPConfig where
  m : ℤ
  L : Option ℚ
  eta_lam : ℚ
  ls_mu : Option ℚ
  ls_sigma : ℚ
  cov_set : Bool
deriving DecidableEq

/-- Lines 219-222 of tvp.py: fill an unset `L` with
`time_index_mid + DAYS_IN_YEAR / time_resolution` and an unset `ls_mu` with
`DAYS_IN_YEAR / time_resolution * 2`. The in-place mutation of the
passed-in record is embedded by returning the updated record. -/
def resolve_tvp_config (cfg : TVPConfig) (time_index_mid : ℤ)
    (time_resolution : ℤ) : TVPConfig :=
  let cfg1 : TVPConfig :=
    match cfg.L with
    | none => { cfg with L := some ((time_index_mid : ℚ) + DAYS_IN_YEAR / (time_resolution : ℚ)) }
    | some _ => cfg
  match cfg1.ls_mu with
  | none => { cfg1 with ls_mu := some (DAYS_IN_YEAR / (time_resolution : ℚ) * 2) }
  | some _ => cfg1

/-- Lines 217-231 of tvp.py: `create_time_varying_gp_multiplier` resolves the
configuration record in place and invokes `time_varying_prior` under the
derived name `f"{name}_temporal_latent_multiplier"`. The embedding returns
the mutated record together with the derived name passed to the builder. -/
def create_time_varying_gp_multiplier (name : String) (time_index_mid : ℤ)
    (time_resolution : ℤ) (cfg : TVPConfig) : TVPConfig × String :=
  (resolve_tvp_config cfg time_index_mid time_resolution,
   name ++ "_temporal_latent_multiplier")

/-- Lines 233-240 of tvp.py for a nonzero `time_resolution`:
`infer_time_index` maps each date to
`(d - date_series[0]).days // time_resolution`. Dates are embedded as
integer day numbers (the sequences hold whole-day timestamps, so `.days` is
the exact day difference); pandas integer `//` with a nonzero divisor is
floor division, `Int.fdiv`. The zero-divisor path of the source, where the
pandas division yields non-finite floats and the trailing integer cast
raises, is embedded by `infer_time_index_checked` below; the two embeddings
agree whenever `time_resolution ≠ 0` (`infer_time_index_checked_eq`). -/
def infer_time_index (date_series_new date_series : List ℤ)
    (time_resolution : ℤ) : List ℤ :=
  date_series_new.map (fun d => Int.fdiv (d - date_series.headI) time_resolution)

/-- One element of the pandas floor division `.days // time_resolution` at
line 240. For a nonzero divisor this is integer floor division. For divisor
zero pandas masks the zero division (`mask_zero_div_zero`): the element
becomes a non-finite float — `inf` for a positive numerator, `-inf` for a
negative one, `nan` for `0 // 0` — represented here as `none`, since the
only later use of a non-finite element is the cast failure. -/
def pd_floordiv (d k : ℤ) : Option ℤ :=
  if k = 0 then none else some (Int.fdiv d k)

/-- The `.astype(int)` cast closing line 240: it raises a ValueError when
any element of the divided array is non-finite (`none`), and otherwise
returns the integer elements. -/
def astype_int (xs : List (Option ℤ)) : Except String (List ℤ) :=
  match xs with
  | [] => .ok []
  | none :: _ => .error "Cannot convert non-finite values (NA or inf) to integer"
  | some v :: rest =>
      match astype_int rest with
      | .ok vs => .ok (v :: vs)
      | .error e => .error e

/-- Lines 233-240 of tvp.py with the pandas division and cast semantics
made explicit: subtract the reference epoch, floor-divide each day
difference by `time_resolution` (non-finite when the divisor is zero), then
cast to integer, which raises if any element is non-finite. There is no
validation of `time_resolution` anywhere before the division. -/
def infer_time_index_checked (date_series_new date_series : List ℤ)
    (time_resolution : ℤ) : Except String (List ℤ) :=
  astype_int (date_series_new.map
    (fun d => pd_floordiv (d - date_series.headI) time_resolution))

theorem softplus_pos (x : ℝ) : 0 < softplus x := by
  have h := Real.exp_pos x
  exact Real.log_pos (by linarith)

theorem fdiv_eq_floor (a k : ℤ) (hk : 0 < k) :
    Int.fdiv a k = ⌊(a : ℚ) / (k : ℚ)⌋ := by
  rw [Int.fdiv_eq_ediv a hk.le]
  have hknat : ((k.toNat : ℤ)) = k := Int.toNat_of_nonneg hk.le
  rw [← hknat, ← Rat.floor_intCast_div_natCast a k.toNat]
  push_cast
  rfl

theorem lookup_append_single (l : List (String × List ℕ)) (n : String) (x : List ℕ)
    (h : l.lookup n = none) : (l ++ [(n, x)]).lookup n = some x := by
  induction l with
  | nil => simp [List.lookup]
  | cons p t ih =>
      obtain ⟨k, b⟩ := p
      rw [List.cons_append]
      by_cases hb : n = k
      · subst hb
        simp [List.lookup] at h
      · have hbk : (n == k) = false := beq_eq_false_iff_ne.mpr hb
        simp only [List.lookup, hbk] at h ⊢
        exact ih h

theorem add_coord_lookup_of_ok (coords coords2 : List (String × List ℕ))
    (n : String) (v : List ℕ) (h : add_coord coords n v = .ok coords2) :
    coords2.lookup n = some v := by
  unfold add_coord at h
  split at h
  · next old hl =>
      split at h
      · next he =>
          cases h
          rw [hl, he]
      · cases h
  · next hl =>
      cases h
      exact lookup_append_single coords n v hl

/-- C1 (amended): for every realization of the basis coefficients (and any
basis and spectral-weight values), every element of the
positivity-transformed tensor `pt.softplus(f)` of line 179 is strictly
positive; the non-negativity claimed for the returned multiplier does not
survive the subsequent mean-centering of line 180. -/
theorem time_varying_prior_softplus_positive (T m : ℕ) (phi : Fin T → Fin m → ℝ)
    (hsgp_coefs sqrt_psd : Fin m → ℝ) (t : Fin T) :
    0 < softplus (tvp_f T m phi hsgp_coefs sqrt_psd t) :=
  softplus_pos _

/-- C1 (counterexample): at the realization with two time points, one basis
function, basis matrix `[[0], [1]]`, coefficient 6 and unit spectral weight,
the raw draw is `[0, 6]` and element 0 of the multiplier returned by
`time_varying_prior`, `softplus 0 - (softplus 0 + softplus 6)/2 + 1`, is
negative: the returned multiplier is not elementwise non-negative. -/
theorem time_varying_prior_value_negative :
    time_varying_prior_value 2 1 ![![0], ![1]] ![6] ![1] 0 < 0 := by
  have h2 : Real.log 2 < 1 := by
    have he := Real.exp_one_gt_d9
    have h2e : (2 : ℝ) < Real.exp 1 := by linarith
    calc Real.log 2 < Real.log (Real.exp 1) := Real.log_lt_log (by norm_num) h2e
      _ = 1 := Real.log_exp 1
  have h6 : (6 : ℝ) < Real.log (1 + Real.exp 6) := by
    have hp := Real.exp_pos (6 : ℝ)
    calc (6 : ℝ) = Real.log (Real.exp 6) := (Real.log_exp 6).symm
      _ < Real.log (1 + Real.exp 6) := Real.log_lt_log hp (by linarith)
  have hval : time_varying_prior_value 2 1 ![![0], ![1]] ![6] ![1] 0
      = Real.log 2 - (Real.log 2 + Real.log (1 + Real.exp 6)) / 2 + 1 := by
    simp [time_varying_prior_value, tvp_multiplier, tvp_f, softplus,
      Fin.sum_univ_two, Fin.sum_univ_one]
    norm_num [Real.exp_zero]
  rw [hval]
  linarith

/-- C2: for every realization of the basis coefficients (and any basis and
spectral-weight values), the mean of the multiplier returned by
`time_varying_prior` along the time axis equals 1 exactly in real
arithmetic (the claim allows floating-point tolerance). -/
theorem time_varying_prior_mean_one (n m : ℕ) (phi : Fin (n+1) → Fin m → ℝ)
    (hsgp_coefs sqrt_psd : Fin m → ℝ) :
    (∑ t, time_varying_prior_value (n+1) m phi hsgp_coefs sqrt_psd t) / ((n : ℝ) + 1) = 1 := by
  have hne : ((n : ℝ) + 1) ≠ 0 := by positivity
  unfold time_varying_prior_value tvp_multiplier
  rw [Finset.sum_add_distrib, Finset.sum_sub_distrib, Finset.sum_const, Finset.card_univ,
    Fintype.card_fin]
  push_cast
  field_simp

/-- C3: `infer_time_index` maps each date `d` to the floor of
`(d - ref₀) / time_resolution`; in particular the reference sequence's own
first element maps to index 0, a date exactly at a bucket boundary (an
exact multiple of the resolution past the reference) maps exactly to its
quotient by floor division rather than rounding, and dates before the
reference map to negative indices. -/
theorem infer_time_index_floor_spec (new rest : List ℤ) (r k : ℤ) (hk : 1 ≤ k) :
    infer_time_index new (r :: rest) k
        = new.map (fun d : ℤ => ⌊((d : ℚ) - (r : ℚ)) / (k : ℚ)⌋)
    ∧ (infer_time_index (r :: rest) (r :: rest) k).head? = some 0
    ∧ (∀ q : ℤ, infer_time_index [r + q * k] (r :: rest) k = [q])
    ∧ (∀ d : ℤ, d < r → ∀ v : ℤ, infer_time_index [d] (r :: rest) k = [v] → v < 0) := by
  have hk0 : (0 : ℤ) < k := hk
  have hkq : (0 : ℚ) < (k : ℚ) := by exact_mod_cast hk0
  have hmap : ∀ (d : ℤ), Int.fdiv (d - r) k = ⌊((d : ℚ) - (r : ℚ)) / (k : ℚ)⌋ := by
    intro d
    rw [fdiv_eq_floor (d - r) k hk0]
    push_cast
    rfl
  refine ⟨?_, ?_, ?_, ?_⟩
  · unfold infer_time_index
    simp only [List.headI]
    exact List.map_congr_left (fun d _ => hmap d)
  · unfold infer_time_index
    simp only [List.headI, List.map_cons, List.head?_cons]
    rw [sub_self, Int.zero_fdiv]
  · intro q
    unfold infer_time_index
    simp only [List.headI, List.map_cons, List.map_nil]
    rw [hmap]
    have : ((r + q * k : ℤ) : ℚ) - (r : ℚ) = (q : ℚ) * (k : ℚ) := by push_cast; ring
    rw [this, mul_div_assoc, div_self (ne_of_gt hkq), mul_one, Int.floor_intCast]
  · intro d hd v hv
    unfold infer_time_index at hv
    simp only [List.headI, List.map_cons, List.map_nil] at hv
    have hv' : v = Int.fdiv (d - r) k := by
      injection hv with h1 h2
      exact h1.symm
    rw [hv', hmap]
    have hneg : ((d : ℚ) - (r : ℚ)) / (k : ℚ) < 0 := by
      apply div_neg_of_neg_of_pos _ hkq
      have : (d : ℚ) < (r : ℚ) := by exact_mod_cast hd
      linarith
    exact_mod_cast Int.floor_lt.mpr (by exact_mod_cast hneg)

/-- C3 (witness): the hypotheses of `infer_time_index_floor_spec` hold at the
concrete input with reference epoch 0 and resolution 2, where the epoch
itself maps to index 0. -/
theorem infer_time_index_floor_spec_witness :
    (infer_time_index ((0 : ℤ) :: []) ((0 : ℤ) :: []) 2).head? = some 0 :=
  (infer_time_index_floor_spec [] [] 0 2 (by decide)).2.1

theorem astype_int_map_some (l : List ℤ) : astype_int (l.map some) = .ok l := by
  induction l with
  | nil => rfl
  | cons a t ih => simp [astype_int, ih]

theorem infer_time_index_checked_eq (new ref : List ℤ) (k : ℤ) (hk : k ≠ 0) :
    infer_time_index_checked new ref k = .ok (infer_time_index new ref k) := by
  unfold infer_time_index_checked infer_time_index
  have hmap : new.map (fun d => pd_floordiv (d - ref.headI) k)
      = (new.map (fun d => Int.fdiv (d - ref.headI) k)).map some := by
    rw [List.map_map]
    exact List.map_congr_left (fun d _ => by simp [pd_floordiv, hk])
  rw [hmap]
  exact astype_int_map_some _

/-- C4 (counterexample): calling `infer_time_index` with
`time_resolution = 0` does not fail with an invalid-argument error before
the division: the division itself runs (the pandas zero-divisor masking
turns the day difference 7 into a non-finite value) and the failure that
surfaces is the subsequent `.astype(int)` cast's cannot-convert error. -/
theorem infer_time_index_zero_resolution_cast_error :
    infer_time_index_checked [7] ((0 : ℤ) :: []) 0
      = .error "Cannot convert non-finite values (NA or inf) to integer" := rfl

/-- C4 (amended): `infer_time_index` performs no validation of
`time_resolution`; with `time_resolution = 0` and at least one date, the
division proceeds (pandas yields `inf` for positive day differences,
`-inf` for negative ones, `nan` for zero) and the call then fails at the
trailing `.astype(int)` cast with a cannot-convert-non-finite-values
ValueError — an error raised after the division, not an argument-validation
error raised before it. -/
theorem infer_time_index_zero_resolution (new ref : List ℤ) (h : new ≠ []) :
    infer_time_index_checked new ref 0
      = .error "Cannot convert non-finite values (NA or inf) to integer" := by
  cases new with
  | nil => exact absurd rfl h
  | cons d tl => rfl

/-- C4 (witness): the hypotheses of `infer_time_index_zero_resolution` hold
at the two-date list `[3, 9]` with reference epoch 1. -/
theorem infer_time_index_zero_resolution_witness :
    infer_time_index_checked [3, 9] ((1 : ℤ) :: []) 0
      = .error "Cannot convert non-finite values (NA or inf) to integer" :=
  infer_time_index_zero_resolution [3, 9] [(1 : ℤ)] (by decide)

/-- C5 (counterexample): with `m = 0`, supplied `L = -1 ≤ 0`, and a `dims`
tuple of length 3 ≠ 2, the setup phase of `time_varying_prior` (everything
before basis construction) completes without raising: the function has no
fail-fast validation of `m`, `L`, or the tuple length. -/
theorem time_varying_prior_setup_accepts_invalid :
    exc_ok (time_varying_prior_setup ⟨[], []⟩ "sales" 0
      (.tuple ["time", "channel", "extra"]) (some 0) 0 (some (-1)) 1 5 5 false) = true := rfl

/-- C5 (amended): `time_varying_prior` performs no validation before basis
construction: on a fresh model context its setup phase fails only when
`dims` is a tuple with fewer than two elements (an index error at the
`dims[1]` access, not a descriptive shape error); every other
configuration, including `m ≤ 0`, resolved `L ≤ 0`, and tuples longer than
2, is accepted. -/
theorem time_varying_prior_setup_ok_iff (name : String) (X_mean : ℚ)
    (dims : DimsSpec) (X_mid : Option ℚ) (m : ℤ) (L : Option ℚ)
    (eta_lam ls_mu ls_sigma : ℚ) (cov_set : Bool) :
    exc_ok (time_varying_prior_setup ⟨[], []⟩ name X_mean dims X_mid m L
        eta_lam ls_mu ls_sigma cov_set) = dims_len_ok dims := by
  cases dims with
  | single d => rfl
  | tuple ds =>
      rcases ds with _ | ⟨a, _ | ⟨b, t⟩⟩
      · rfl
      · rfl
      · rfl

/-- C6 (amended): on a fresh model context, `time_varying_prior` with
`cov_func` unset creates exactly three named random variables, in creation
order the Exponential `{name}_eta`, the InverseGamma `{name}_ls`, and the
standard-normal coefficient vector `{name}_hsgp_coefs`; with `cov_func`
supplied it creates exactly one, the coefficient vector, and the resulting
model state does not mention `eta_lam`, `ls_mu`, `ls_sigma` (they are
ignored). -/
theorem time_varying_prior_rv_creation (name d : String) (X_mean : ℚ)
    (X_mid : Option ℚ) (m : ℤ) (L : Option ℚ) (eta_lam ls_mu ls_sigma : ℚ) :
    (time_varying_prior_setup ⟨[], []⟩ name X_mean (.single d) X_mid m L
        eta_lam ls_mu ls_sigma false
       = .ok (⟨[("m", np_arange m)],
               [.exponential (name ++ "_eta") eta_lam,
                .inverseGamma (name ++ "_ls") ls_mu ls_sigma,
                .normal (name ++ "_hsgp_coefs") ["m"]]⟩,
              X_mid.getD X_mean, L.getD (X_mid.getD X_mean * 2), ["m"]))
    ∧ (time_varying_prior_setup ⟨[], []⟩ name X_mean (.single d) X_mid m L
        eta_lam ls_mu ls_sigma true
       = .ok (⟨[("m", np_arange m)],
               [.normal (name ++ "_hsgp_coefs") ["m"]]⟩,
              X_mid.getD X_mean, L.getD (X_mid.getD X_mean * 2), ["m"])) := by
  cases X_mid <;> cases L <;> exact ⟨rfl, rfl⟩

/-- C6 (counterexample): with `cov_func` supplied, `time_varying_prior`
still creates one new random variable, the coefficient vector
`{name}_hsgp_coefs` of line 177, so the number of random variables it
creates is 1, not the claimed 0. -/
theorem time_varying_prior_cov_supplied_creates_one :
    (time_varying_prior_setup ⟨[], []⟩ "sales" 0 (.single "time") (some 0) 3
        (some 1) 1 5 5 true).map (fun s => s.1.rvs.length) = .ok 1 := rfl

/-- C7: `create_time_varying_gp_multiplier` fills an unset `L` with
`time_index_mid + DAYS_IN_YEAR / time_resolution` and an unset `ls_mu` with
`DAYS_IN_YEAR / time_resolution * 2`; with `time_resolution = 5`,
`DAYS_IN_YEAR = 365` and `time_index_mid = 36` the resolved values are
`L = 109` and `ls_mu = 146`, and the prior is built under the derived name
`{name}_temporal_latent_multiplier`. -/
theorem create_time_varying_gp_multiplier_defaults (name : String) (m : ℤ)
    (eta_lam ls_sigma : ℚ) (c : Bool) (mid res : ℤ) :
    create_time_varying_gp_multiplier name mid res ⟨m, none, eta_lam, none, ls_sigma, c⟩
        = (⟨m, some ((mid : ℚ) + DAYS_IN_YEAR / (res : ℚ)),
            eta_lam, some (DAYS_IN_YEAR / (res : ℚ) * 2), ls_sigma, c⟩,
           name ++ "_temporal_latent_multiplier")
    ∧ create_time_varying_gp_multiplier name 36 5 ⟨m, none, eta_lam, none, ls_sigma, c⟩
        = (⟨m, some 109, eta_lam, some 146, ls_sigma, c⟩,
           name ++ "_temporal_latent_multiplier") := by
  constructor
  · rfl
  · have hL : ((36 : ℤ) : ℚ) + DAYS_IN_YEAR / ((5 : ℤ) : ℚ) = 109 := by
      unfold DAYS_IN_YEAR; norm_num
    have hmu : DAYS_IN_YEAR / ((5 : ℤ) : ℚ) * 2 = 146 := by
      unfold DAYS_IN_YEAR; norm_num
    simp only [create_time_varying_gp_multiplier, resolve_tvp_config, hL, hmu]

/-- C8: with `L` and `ls_mu` unset in the per-name record,
`create_time_varying_gp_multiplier` writes the resolved values into the
record using the stated formulas (the in-place mutation of the passed-in
mapping is embedded as the returned record), and a second call on the
already-resolved record is idempotent: it leaves both values unchanged. -/
theorem create_time_varying_gp_multiplier_idempotent (name : String) (m : ℤ)
    (eta_lam ls_sigma : ℚ) (c : Bool) (mid res : ℤ) :
    ((create_time_varying_gp_multiplier name mid res
          ⟨m, none, eta_lam, none, ls_sigma, c⟩).1.L
        = some ((mid : ℚ) + DAYS_IN_YEAR / (res : ℚ))
      ∧ (create_time_varying_gp_multiplier name mid res
          ⟨m, none, eta_lam, none, ls_sigma, c⟩).1.ls_mu
        = some (DAYS_IN_YEAR / (res : ℚ) * 2))
    ∧ create_time_varying_gp_multiplier name mid res
        ((create_time_varying_gp_multiplier name mid res
            ⟨m, none, eta_lam, none, ls_sigma, c⟩).1)
      = create_time_varying_gp_multiplier name mid res
          ⟨m, none, eta_lam, none, ls_sigma, c⟩ :=
  ⟨⟨rfl, rfl⟩, rfl⟩

/-- C9: when the input date sequence is sorted ascending and the resolution
is at least 1, the index sequence returned by `infer_time_index` is
monotonically non-decreasing. -/
theorem infer_time_index_sorted_monotone (new rest : List ℤ) (r k : ℤ)
    (hk : 1 ≤ k) (hs : new.Sorted (· ≤ ·)) :
    (infer_time_index new (r :: rest) k).Sorted (· ≤ ·) := by
  unfold infer_time_index
  refine List.Pairwise.map _ ?_ hs
  intro a b hab
  have hk0 : (0 : ℤ) ≤ k := by linarith
  simp only [List.headI]
  rw [Int.fdiv_eq_ediv _ hk0, Int.fdiv_eq_ediv _ hk0]
  exact Int.ediv_le_ediv (by linarith) (by linarith)

/-- C9 (witness): the hypotheses of `infer_time_index_sorted_monotone` hold
at the sorted date list `[0, 3, 7]` with resolution 2. -/
theorem infer_time_index_sorted_monotone_witness :
    (infer_time_index [0, 3, 7] ((0 : ℤ) :: [5]) 2).Sorted (· ≤ ·) :=
  infer_time_index_sorted_monotone [0, 3, 7] [5] 0 2 (by decide) (by decide)

theorem resolve_hsgp_dims_ok_of_len (dims : DimsSpec)
    (h : dims_len_ok dims = true) : ∃ hd, resolve_hsgp_dims dims = .ok hd := by
  cases dims with
  | single d => exact ⟨["m"], rfl⟩
  | tuple ds =>
      rcases ds with _ | ⟨a, _ | ⟨b, t⟩⟩
      · simp [dims_len_ok] at h
      · simp [dims_len_ok] at h
      · exact ⟨[b, "m"], rfl⟩

/-- C10: `time_varying_prior` registers the basis coordinate under the
fixed literal name "m" (independent of the `name` argument) with values
`np.arange(m)`, i.e. `0 .. m-1`; consequently, after a first call with
basis count `m1` succeeded, a second call on the same model context with a
well-formed `dims` and basis count `m2` succeeds exactly when `m1 = m2`,
and otherwise fails at the coordinate registration. -/
theorem time_varying_prior_coord_m (st0 : ModelState) (name1 name2 : String)
    (X1 X2 : ℚ) (dims1 dims2 : DimsSpec) (xm1 xm2 : Option ℚ) (m1 m2 : ℤ)
    (L1 L2 : Option ℚ) (e1 l1 s1 e2 l2 s2 : ℚ) (c1 c2 : Bool)
    (res1 : ModelState × ℚ × ℚ × List String)
    (h1 : time_varying_prior_setup st0 name1 X1 dims1 xm1 m1 L1 e1 l1 s1 c1 = .ok res1)
    (hm1 : 0 < m1) (hm2 : 0 < m2) (hd2 : dims_len_ok dims2 = true) :
    res1.1.coords.lookup "m" = some (np_arange m1)
    ∧ (exc_ok (time_varying_prior_setup res1.1 name2 X2 dims2 xm2 m2 L2 e2 l2 s2 c2) = true
        ↔ m1 = m2) := by
  simp only [time_varying_prior_setup] at h1
  split at h1
  · exact Except.noConfusion h1
  · next coords1 hadd =>
      split at h1
      · exact Except.noConfusion h1
      · next hdims1 hres =>
          injection h1 with h1
          subst h1
          have hl1 : coords1.lookup "m" = some (np_arange m1) :=
            add_coord_lookup_of_ok _ _ _ _ hadd
          refine ⟨hl1, ?_⟩
          by_cases harr : np_arange m1 = np_arange m2
          · have hmeq : m1 = m2 := by
              have hlen := congrArg List.length harr
              simp only [np_arange, List.length_range] at hlen
              omega
            have hcoord : add_coord coords1 "m" (np_arange m2) = .ok coords1 := by
              unfold add_coord
              rw [hl1]
              simp [harr]
            obtain ⟨hd, hok⟩ := resolve_hsgp_dims_ok_of_len dims2 hd2
            simp only [time_varying_prior_setup, hcoord, hok]
            simp [exc_ok, hmeq]
          · have hmne : ¬m1 = m2 := fun he => harr (by rw [he])
            have hcoord : add_coord coords1 "m" (np_arange m2)
                = .error ("Duplicate and incompatible coordinate: " ++ "m") := by
              unfold add_coord
              rw [hl1]
              simp [harr]
            simp only [time_varying_prior_setup, hcoord]
            simp [exc_ok, hmne]

/-- C10 (witness): the hypotheses of `time_varying_prior_coord_m` hold at a
concrete first call on a fresh context with basis count 2, after which the
coordinate "m" holds the values `np.arange(2)`. -/
theorem time_varying_prior_coord_m_witness :
    ((⟨[("m", [0, 1])],
       [RVSpec.exponential "a_eta" 1, RVSpec.inverseGamma "a_ls" 5 5,
        RVSpec.normal "a_hsgp_coefs" ["m"]]⟩ : ModelState),
      (0 : ℚ), (1 : ℚ), ["m"]).1.coords.lookup "m" = some (np_arange 2) :=
  (time_varying_prior_coord_m ⟨[], []⟩ "a" "b" 0 0 (.single "time") (.single "time")
    (some 0) (some 0) 2 2 (some 1) (some 1) 1 5 5 1 5 5 false false
    (⟨⟨[("m", [0, 1])],
       [.exponential "a_eta" 1, .inverseGamma "a_ls" 5 5,
        .normal "a_hsgp_coefs" ["m"]]⟩, 0, 1, ["m"]⟩)
    rfl (by decide) (by decide) rfl).1
